import Mathlib

set_option linter.unusedVariables false

/-!
A shallow embedding of the ledger Block Coordinator state machine
(`BlockCoordinator` in the repository sources) together with functional
models of its collaborators: the main chain store, the Merkle-versioned
state store, the execution engine and the optional DAG subsystem.

Modelling conventions:
* block digests and Merkle roots are natural numbers; the empty
  (default-constructed) digest is `0` and the distinguished GENESIS
  digest / GENESIS Merkle root is `1`;
* collaborator responses that the coordinator merely observes (ancestor
  path lookups, stake oracle answers, execution engine states, packer,
  miner and AddBlock outcomes, work-queue statuses) are passed to the
  handlers as explicit inputs, mirroring the call results in the source;
* the versioned state store is modelled functionally: `revertToHash`
  succeeds exactly on snapshots that were committed (the genesis
  snapshot is always available), `commit` records the current root;
* the optional DAG is modelled by its current epoch; `RevertToEpoch` is
  modelled as succeeding (setting the epoch) and `CommitEpoch` is logged;
* latent null-pointer dereferences in the source are made visible by
  handlers returning `Option` results, `none` marking the undefined
  behaviour; telemetry counters, log statements and the periodic gates
  that only rate-limit logging are omitted.
-/

/-- The sixteen coordinator states (`BlockCoordinator::State`). -/
inductive State where
  | RELOAD_STATE
  | SYNCHRONISING
  | SYNCHRONISED
  | PRE_EXEC_BLOCK_VALIDATION
  | WAIT_FOR_TRANSACTIONS
  | SYNERGETIC_EXECUTION
  | SCHEDULE_BLOCK_EXECUTION
  | WAIT_FOR_EXECUTION
  | POST_EXEC_BLOCK_VALIDATION
  | NEW_SYNERGETIC_EXECUTION
  | PACK_NEW_BLOCK
  | EXECUTE_NEW_BLOCK
  | WAIT_FOR_NEW_BLOCK_EXECUTION
  | PROOF_SEARCH
  | TRANSMIT_BLOCK
  | RESET
deriving DecidableEq, Repr

/-- Raw execution engine states (`ExecutionManagerInterface::State`). -/
inductive ExecutionState where
  | IDLE
  | ACTIVE
  | TRANSACTIONS_UNAVAILABLE
  | EXECUTION_ABORTED
  | EXECUTION_FAILED
deriving DecidableEq, Repr

/-- Simplified executor lifecycle as seen by the coordinator
(`BlockCoordinator::ExecutionStatus`). -/
inductive ExecutionStatus where
  | IDLE
  | RUNNING
  | STALLED
  | ERROR
deriving DecidableEq, Repr

/-- Outcome of `MainChain::AddBlock` as observed in `OnTransmitBlock`;
`THREW` models the call raising an exception. -/
inductive AddOutcome where
  | ADDED
  | ALREADY_PRESENT
  | REJECTED
  | THREW
deriving DecidableEq, Repr

/-- The empty (default-constructed) digest: a fresh block's hash before
`UpdateDigest` closes it. -/
def EMPTY_DIGEST : Nat := 0

/-- The distinguished GENESIS block digest. -/
def GENESIS_DIGEST : Nat := 1

/-- The distinguished GENESIS Merkle root. -/
def GENESIS_MERKLE_ROOT : Nat := 1

/-- `THRESHOLD_FOR_FAST_SYNCING` from the source (100). -/
def THRESHOLD_FOR_FAST_SYNCING : Nat := 100

/-- `WAIT_BEFORE_ASKING_FOR_MISSING_TX_INTERVAL` (30 s) in milliseconds. -/
def WAIT_BEFORE_ASKING_FOR_MISSING_TX_MS : Nat := 30000

/-- `WAIT_FOR_TX_TIMEOUT_INTERVAL` (30 s) in milliseconds. -/
def WAIT_FOR_TX_TIMEOUT_MS : Nat := 30000

/-- The 200 ms delay requested between `WAIT_FOR_TRANSACTIONS` re-entries. -/
def TX_WAIT_RETRY_PERIOD_MS : Nat := 200

/-- Block body: fields of `Block::Body` that the coordinator reads or
writes.  Transactions are represented by their digests inside `slices`. -/
structure BlockBody where
  previous_hash : Nat
  hash : Nat
  block_number : Nat
  miner : Nat
  merkle_hash : Nat
  slices : List (List Nat)
  log2_num_lanes : Nat
  dag_epoch : Nat
deriving DecidableEq, Repr

/-- A block: body plus consensus weight and the proof difficulty target. -/
structure Block where
  body : BlockBody
  weight : Nat
  proof_target : Nat
deriving DecidableEq, Repr

/-- A default-constructed block (`std::make_unique<Block>()`): every
digest empty, numeric fields zero. -/
def defaultBlock : Block :=
  { body := { previous_hash := EMPTY_DIGEST, hash := EMPTY_DIGEST, block_number := 0,
              miner := 0, merkle_hash := EMPTY_DIGEST, slices := [],
              log2_num_lanes := 0, dag_epoch := 0 },
    weight := 0, proof_target := 0 }

/-- Modelled from the spec: the Merkle-versioned state store contract of
section 6 (`currentHash`, `lastCommitHash`, `hashExists`, `revertToHash`,
`commit`); the store implementation itself is not under the sources.
`txs` is the transaction index used by `HasTransaction`. -/
structure StorageUnit where
  current : Nat
  lastCommit : Nat
  committed : List (Nat × Nat)
  txs : List Nat
deriving DecidableEq, Repr

/-- `hashExists(merkle, block_number)`: the pair was committed. -/
def StorageUnit.hashExists (s : StorageUnit) (m n : Nat) : Bool :=
  s.committed.contains (m, n)

/-- `revertToHash`: succeeds on any committed snapshot and on the
always-available genesis snapshot, setting the current root. -/
def StorageUnit.revertToHash (s : StorageUnit) (m n : Nat) : Bool × StorageUnit :=
  if s.hashExists m n || (m == GENESIS_MERKLE_ROOT && n == 0) then
    (true, { s with current := m })
  else
    (false, s)

/-- `commit(block_number)`: snapshot the current root at this number. -/
def StorageUnit.commit (s : StorageUnit) (n : Nat) : StorageUnit :=
  { s with committed := (s.current, n) :: s.committed, lastCommit := s.current }

/-- `HasTransaction(digest)`. -/
def StorageUnit.hasTransaction (s : StorageUnit) (d : Nat) : Bool :=
  s.txs.contains d

/-- The world visible to a handler: the coordinator's own fields plus the
modelled collaborator states and effect logs (status cache updates, block
sink emissions, missing-transaction calls, stake-oracle notifications). -/
structure World where
  chain_blocks : List Block
  heaviest_hash : Nat
  storage : StorageUnit
  engine_last_processed : Nat
  dag : Option Nat
  dagCommits : List Nat
  current_block : Option Block
  next_block : Option Block
  pending_txs : Option (List Nat)
  blocks_to_common_ancestor : List Block
  last_executed_block : Nat
  have_asked_for_missing_txs : Bool
  wait_before_deadline : Nat
  wait_tx_deadline : Nat
  next_block_time : Nat
  mining : Bool
  mining_enabled : Bool
  stake : Bool
  synergetic : Bool
  mining_address : Nat
  block_difficulty : Nat
  num_lanes : Nat
  num_slices : Nat
  block_period : Nat
  status_executed : List Nat
  sink_blocks : List Block
  missing_tx_calls : List (List Nat)
  stake_updates : List Block
deriving DecidableEq, Repr

/-- `MainChain::GetBlock(hash)`. -/
def getBlock (w : World) (h : Nat) : Option Block :=
  w.chain_blocks.find? (fun b => b.body.hash == h)

/-- `MainChain::RemoveBlock(hash)`. -/
def chainRemoveBlock (w : World) (h : Nat) : World :=
  { w with chain_blocks := w.chain_blocks.filter (fun b => b.body.hash != h) }

/-- `MainChain::GetHeaviestBlock()`. -/
def GetHeaviestBlock (w : World) : Option Block :=
  getBlock w w.heaviest_hash

/-- All transaction digests of a block, across all slices in order. -/
def blockTxDigests (b : Block) : List Nat :=
  b.body.slices.flatten

/-- `DAG::CreateEpoch(block_number)`: the epoch handle for this number. -/
def DagCreateEpoch (n : Nat) : Nat := n

/-- `TransactionStatusCache::Update(digest, EXECUTED)` applied to all the
transactions of a block (`BlockCoordinator::UpdateTxStatus`). -/
def UpdateTxStatus (w : World) (b : Block) : World :=
  { w with status_executed := w.status_executed ++ blockTxDigests b }

/-- Result of one handler invocation: updated world, next state and the
delay (ms) requested via `state_machine_->Delay`. -/
structure HRes where
  w : World
  next : State
  delay : Nat
deriving DecidableEq, Repr

/-- `BlockCoordinator::QueryExecutorStatus`: maps the raw engine state to
the simplified executor lifecycle. -/
def QueryExecutorStatus : ExecutionState → ExecutionStatus
  | ExecutionState.IDLE => ExecutionStatus.IDLE
  | ExecutionState.ACTIVE => ExecutionStatus.RUNNING
  | ExecutionState.TRANSACTIONS_UNAVAILABLE => ExecutionStatus.STALLED
  | ExecutionState.EXECUTION_ABORTED => ExecutionStatus.ERROR
  | ExecutionState.EXECUTION_FAILED => ExecutionStatus.ERROR

/-- `BlockCoordinator::OnReloadState`.  `none` models the startup assert
firing on a null heaviest block. -/
def OnReloadState (w0 : World) : Option HRes :=
  let w := match w0.current_block with
           | none => { w0 with current_block := GetHeaviestBlock w0 }
           | some _ => w0
  match w.current_block with
  | none => none
  | some cb =>
    if cb.body.previous_hash = GENESIS_DIGEST then
      some ⟨w, State.RESET, 0⟩
    else
      let rs := w.storage.revertToHash cb.body.merkle_hash cb.body.block_number
      let w1 := { w with storage := rs.2 }
      let w2 := { w1 with dag := w1.dag.map (fun _ => cb.body.block_number) }
      if rs.1 then
        some ⟨{ w2 with engine_last_processed := cb.body.hash,
                        last_executed_block := cb.body.hash }, State.RESET, 0⟩
      else
        some ⟨w2, State.RESET, 0⟩

/-- `BlockCoordinator::OnSynchronising`.  `pathLookup` is the result of
`MainChain::GetPathToCommonAncestor` (used only when the cached ancestor
path is empty); `none` as overall result models the `size() >= 2`
assertion being violated (undefined iterator use past it). -/
def OnSynchronising (pathLookup : Option (List Block)) (w0 : World) : Option HRes :=
  let w := match w0.current_block with
           | none => { w0 with current_block := GetHeaviestBlock w0 }
           | some _ => w0
  match w.current_block with
  | none => some ⟨w, State.RESET, 500⟩
  | some cb =>
    if cb.body.hash = EMPTY_DIGEST then
      some ⟨w, State.RESET, 500⟩
    else
      let current_hash := cb.body.hash
      let previous_hash := cb.body.previous_hash
      let last_processed := w.engine_last_processed
      if last_processed = GENESIS_DIGEST then
        if previous_hash = GENESIS_DIGEST then
          some ⟨w, State.PRE_EXEC_BLOCK_VALIDATION, 0⟩
        else
          match getBlock w previous_hash with
          | none => some ⟨w, State.RESET, 0⟩
          | some pb => some ⟨{ w with current_block := some pb }, State.SYNCHRONISING, 0⟩
      else if current_hash = last_processed then
        some ⟨w, State.SYNCHRONISED, 0⟩
      else
        let lookup : Option (List Block) :=
          if w.blocks_to_common_ancestor.isEmpty then pathLookup
          else some w.blocks_to_common_ancestor
        match lookup with
        | none => some ⟨w, State.RESET, 0⟩
        | some path =>
          let w1 := { w with blocks_to_common_ancestor := path }
          match path.reverse with
          | parent :: nxt :: _ =>
            if w1.storage.hashExists parent.body.merkle_hash parent.body.block_number then
              let rs := w1.storage.revertToHash parent.body.merkle_hash
                          parent.body.block_number
              let w2 := { w1 with storage := rs.2 }
              if rs.1 then
                let w3 := { w2 with dag := w2.dag.map (fun _ => parent.body.block_number) }
                let w4 := { w3 with current_block := some nxt }
                let popped := w4.blocks_to_common_ancestor.dropLast
                let cache := if popped.length < THRESHOLD_FOR_FAST_SYNCING then [] else popped
                some ⟨{ w4 with blocks_to_common_ancestor := cache },
                      State.PRE_EXEC_BLOCK_VALIDATION, 0⟩
              else
                some ⟨w2, State.RESET, 5000⟩
            else
              let w2 := { w1 with engine_last_processed := GENESIS_DIGEST }
              let w3 := { w2 with storage := (w2.storage.revertToHash GENESIS_MERKLE_ROOT 0).2 }
              let w4 := { w3 with dag := w3.dag.map (fun _ => 0) }
              some ⟨w4, State.RESET, 5000⟩
          | _ => none

/-- `BlockCoordinator::OnSynchronised`.  `now` is the clock observation,
`previous` the previous machine state, `stakeShould` and `stakeWeight`
the stake oracle responses.  `none` models the unguarded dereference of
`current_block_`. -/
def OnSynchronised (now : Nat) (previous : State) (stakeShould : Bool)
    (stakeWeight : Nat) (w : World) : Option HRes :=
  match w.current_block with
  | none => none
  | some cb =>
    if w.heaviest_hash ≠ cb.body.hash then
      some ⟨w, State.RESET, 0⟩
    else if w.mining && w.mining_enabled && decide (w.next_block_time ≤ now) then
      if w.stake && !stakeShould then
        some ⟨w, State.SYNCHRONISED, 100⟩
      else
        let nb := { defaultBlock with
                    body := { defaultBlock.body with
                              previous_hash := cb.body.hash,
                              block_number := cb.body.block_number + 1,
                              miner := w.mining_address } }
        let nb := if w.stake then { nb with weight := stakeWeight } else nb
        let nb := match w.dag with
                  | some _ => { nb with body := { nb.body with
                                dag_epoch := DagCreateEpoch nb.body.block_number } }
                  | none => nb
        let nb := { nb with proof_target := w.block_difficulty }
        some ⟨{ w with next_block := some nb, current_block := none },
              State.NEW_SYNERGETIC_EXECUTION, 0⟩
    else if previous = State.SYNCHRONISING then
      some ⟨w, State.SYNCHRONISED, 0⟩
    else
      some ⟨w, State.SYNCHRONISED, 100⟩

/-- `BlockCoordinator::OnPreExecBlockValidation`.  `stakeValid` and
`stakeWeight` are the stake oracle responses, `prevHashSizeOk` the
32-byte digest-size check (byte-level, not representable on numeric
digests), `synPrepare` the `PrepareWorkQueue` status. -/
def OnPreExecBlockValidation (stakeValid : Bool) (stakeWeight : Nat)
    (prevHashSizeOk : Bool) (synPrepare : Bool) (w : World) : Option HRes :=
  match w.current_block with
  | none => none
  | some cb =>
    let failRes : Option HRes := some ⟨chainRemoveBlock w cb.body.hash, State.RESET, 0⟩
    if cb.body.previous_hash = GENESIS_DIGEST then
      -- genesis block: only the digest size check applies
      if !prevHashSizeOk then failRes
      else some ⟨w, State.WAIT_FOR_TRANSACTIONS, 0⟩
    else
      match getBlock w cb.body.previous_hash with
      | none => failRes
      | some prev =>
        if w.stake && !stakeValid then failRes
        else if w.stake && decide (cb.weight ≠ stakeWeight) then failRes
        else if prev.body.block_number + 1 ≠ cb.body.block_number then failRes
        else if w.num_lanes ≠ 2 ^ cb.body.log2_num_lanes then failRes
        else if w.num_slices ≠ cb.body.slices.length then failRes
        else if !prevHashSizeOk then failRes
        else if w.synergetic && !synPrepare then failRes
        else some ⟨w, State.WAIT_FOR_TRANSACTIONS, 0⟩

/-- The tail of `OnWaitForTransactions` after the timer bookkeeping: DAG
epoch readiness, lazy construction of the pending set, the filter pass
against the transaction index, and the exit decision. -/
def waitTxTail (dagReady : Bool) (cb : Block) (w : World) : HRes :=
  let dag_is_ready := match w.dag with
                      | some _ => dagReady
                      | none => true
  let pend0 := match w.pending_txs with
               | none => blockTxDigests cb
               | some p => p
  let pend := pend0.filter (fun d => !(w.storage.hasTransaction d))
  if pend.isEmpty && dag_is_ready then
    ⟨{ w with pending_txs := none }, State.SYNERGETIC_EXECUTION, 0⟩
  else
    ⟨{ w with pending_txs := some pend }, State.WAIT_FOR_TRANSACTIONS,
      TX_WAIT_RETRY_PERIOD_MS⟩

/-- `BlockCoordinator::OnWaitForTransactions`.  `now` is the clock
observation, `prevSame` whether the previous state was this state,
`dagReady` the `SatisfyEpoch` result.  Deadline timers are modelled from
the spec (one-shot countdowns, expiry `now ≥ deadline`, `Restart d`
setting `deadline := now + d`); their implementation is not under the
sources.  `none` models the unguarded dereferences (`current_block_`,
`*pending_txs_`). -/
def OnWaitForTransactions (now : Nat) (prevSame : Bool) (dagReady : Bool)
    (w : World) : Option HRes :=
  match w.current_block with
  | none => none
  | some cb =>
    if prevSame then
      if w.have_asked_for_missing_txs then
        if w.wait_tx_deadline ≤ now then
          -- overall timeout expired: assume the block is invalid, discard it
          some ⟨chainRemoveBlock w cb.body.hash, State.RESET, 0⟩
        else
          some (waitTxTail dagReady cb w)
      else
        if w.wait_before_deadline ≤ now then
          match w.pending_txs with
          | none => none
          | some p =>
            let w1 := { w with missing_tx_calls := w.missing_tx_calls ++ [p],
                               have_asked_for_missing_txs := true,
                               wait_tx_deadline := now + WAIT_FOR_TX_TIMEOUT_MS }
            some (waitTxTail dagReady cb w1)
        else
          some (waitTxTail dagReady cb w)
    else
      let w1 := { w with wait_before_deadline := now + WAIT_BEFORE_ASKING_FOR_MISSING_TX_MS,
                         have_asked_for_missing_txs := false }
      some (waitTxTail dagReady cb w1)

/-- `BlockCoordinator::OnSynergeticExecution`.  `prepareOk` is whether
`PrepareWorkQueue` returned SUCCESS, `validateOk` the result of
`ValidateWorkAndUpdateState`. -/
def OnSynergeticExecution (prepareOk validateOk : Bool) (w : World) : Option HRes :=
  match w.current_block with
  | none => none
  | some cb =>
    if cb.body.previous_hash ≠ GENESIS_DIGEST ∧ w.synergetic = true then
      match getBlock w cb.body.previous_hash with
      | none => some ⟨w, State.RESET, 0⟩
      | some _ =>
        if !prepareOk then
          some ⟨w, State.RESET, 0⟩
        else if !validateOk then
          some ⟨chainRemoveBlock w cb.body.hash, State.RESET, 0⟩
        else
          some ⟨w, State.SCHEDULE_BLOCK_EXECUTION, 0⟩
    else
      some ⟨w, State.SCHEDULE_BLOCK_EXECUTION, 0⟩

/-- `BlockCoordinator::OnScheduleBlockExecution`.  `scheduled` is whether
`ExecutionManager::Execute` returned SCHEDULED. -/
def OnScheduleBlockExecution (scheduled : Bool) (w : World) : HRes :=
  match w.current_block with
  | none => ⟨w, State.RESET, 0⟩
  | some _ =>
    if scheduled then ⟨w, State.WAIT_FOR_EXECUTION, 0⟩
    else ⟨w, State.RESET, 0⟩

/-- `BlockCoordinator::OnWaitForExecution`. -/
def OnWaitForExecution (es : ExecutionState) (w : World) : HRes :=
  match QueryExecutorStatus es with
  | ExecutionStatus.IDLE => ⟨w, State.POST_EXEC_BLOCK_VALIDATION, 0⟩
  | ExecutionStatus.RUNNING => ⟨w, State.WAIT_FOR_EXECUTION, 20⟩
  | ExecutionStatus.STALLED => ⟨w, State.RESET, 0⟩
  | ExecutionStatus.ERROR => ⟨w, State.RESET, 0⟩

/-- `BlockCoordinator::OnPostExecBlockValidation`.  `none` models the
unguarded dereferences: `current_block_`, and — in the Merkle-mismatch
recovery branch where the previous block was found — the call
`dag_->RevertToEpoch(...)` through an absent DAG handle. -/
def OnPostExecBlockValidation (w : World) : Option HRes :=
  match w.current_block with
  | none => none
  | some cb =>
    let state_hash := w.storage.current
    if cb.body.previous_hash ≠ GENESIS_DIGEST ∧ state_hash ≠ cb.body.merkle_hash then
      -- invalid block: recover, then purge the block from the chain
      match getBlock w cb.body.previous_hash with
      | some prev =>
        match w.dag with
        | none => none
        | some _ =>
          let w1 := { w with dag := some prev.body.block_number }
          let rs := w1.storage.revertToHash prev.body.merkle_hash prev.body.block_number
          let w2 := { w1 with storage := rs.2 }
          if rs.1 then
            let w3 := { w2 with engine_last_processed := prev.body.hash }
            some ⟨chainRemoveBlock w3 cb.body.hash, State.RESET, 0⟩
          else
            let w3 := { w2 with dag := w2.dag.map (fun _ => 0) }
            let w4 := { w3 with storage := (w3.storage.revertToHash GENESIS_MERKLE_ROOT 0).2 }
            let w5 := { w4 with engine_last_processed := GENESIS_DIGEST }
            some ⟨chainRemoveBlock w5 cb.body.hash, State.RESET, 0⟩
      | none =>
        let w1 := { w with dag := w.dag.map (fun _ => 0) }
        let w2 := { w1 with storage := (w1.storage.revertToHash GENESIS_MERKLE_ROOT 0).2 }
        let w3 := { w2 with engine_last_processed := GENESIS_DIGEST }
        some ⟨chainRemoveBlock w3 cb.body.hash, State.RESET, 0⟩
    else
      let w1 := UpdateTxStatus w cb
      let w2 := { w1 with storage := w1.storage.commit cb.body.block_number }
      let w3 := match w2.dag with
                | some _ => { w2 with dagCommits := w2.dagCommits ++ [cb.body.dag_epoch] }
                | none => w2
      some ⟨{ w3 with last_executed_block := cb.body.hash }, State.RESET, 0⟩

/-- `BlockCoordinator::OnNewSynergeticExecution`.  `none` also covers the
unguarded `*previous_block` dereference on a failed chain lookup. -/
def OnNewSynergeticExecution (prepareOk validateOk : Bool) (w : World) : Option HRes :=
  if w.synergetic && w.dag.isSome then
    match w.next_block with
    | none => none
    | some nb =>
      match getBlock w nb.body.previous_hash with
      | none => none
      | some _ =>
        if !prepareOk then
          some ⟨w, State.RESET, 0⟩
        else if !validateOk then
          some ⟨w, State.RESET, 0⟩
        else
          some ⟨w, State.PACK_NEW_BLOCK, 0⟩
  else
    some ⟨w, State.PACK_NEW_BLOCK, 0⟩

/-- `BlockCoordinator::OnPackNewBlock`.  `threw` is whether
`GenerateBlock` raised; `packedSlices` the slices the packer filled in. -/
def OnPackNewBlock (now : Nat) (threw : Bool) (packedSlices : List (List Nat))
    (w : World) : Option HRes :=
  match w.next_block with
  | none => none
  | some nb =>
    if threw then
      some ⟨w, State.RESET, 0⟩
    else
      let nb1 := { nb with body := { nb.body with slices := packedSlices } }
      some ⟨{ w with next_block := some nb1,
                     next_block_time := now + w.block_period },
            State.EXECUTE_NEW_BLOCK, 0⟩

/-- `BlockCoordinator::OnExecuteNewBlock`. -/
def OnExecuteNewBlock (scheduled : Bool) (w : World) : HRes :=
  match w.next_block with
  | none => ⟨w, State.RESET, 0⟩
  | some _ =>
    if scheduled then ⟨w, State.WAIT_FOR_NEW_BLOCK_EXECUTION, 0⟩
    else ⟨w, State.RESET, 0⟩

/-- `BlockCoordinator::OnWaitForNewBlockExecution`. On IDLE the minted
block captures the current Merkle root and the state is committed. -/
def OnWaitForNewBlockExecution (es : ExecutionState) (w : World) : Option HRes :=
  match QueryExecutorStatus es with
  | ExecutionStatus.IDLE =>
    match w.next_block with
    | none => none
    | some nb =>
      let nb1 := { nb with body := { nb.body with merkle_hash := w.storage.current } }
      let w1 := { w with next_block := some nb1,
                         storage := w.storage.commit nb1.body.block_number }
      let w2 := match w1.dag with
                | some _ => { w1 with dagCommits := w1.dagCommits ++ [nb1.body.dag_epoch] }
                | none => w1
      some ⟨w2, State.PROOF_SEARCH, 0⟩
  | ExecutionStatus.RUNNING => some ⟨w, State.WAIT_FOR_NEW_BLOCK_EXECUTION, 20⟩
  | ExecutionStatus.STALLED => some ⟨w, State.RESET, 0⟩
  | ExecutionStatus.ERROR => some ⟨w, State.RESET, 0⟩

/-- `BlockCoordinator::OnProofSearch`.  `mined` is the bounded miner
outcome; `newHash` the digest `UpdateDigest` computes for the closed
block. -/
def OnProofSearch (mined : Bool) (newHash : Nat) (w : World) : Option HRes :=
  match w.next_block with
  | none => none
  | some nb =>
    if mined then
      let nb1 := { nb with body := { nb.body with hash := newHash } }
      some ⟨{ w with next_block := some nb1, engine_last_processed := newHash },
            State.TRANSMIT_BLOCK, 0⟩
    else
      some ⟨w, State.PROOF_SEARCH, 0⟩

/-- `BlockCoordinator::OnTransmitBlock`.  Only the ADDED outcome marks
transactions executed, advances the last-executed digest and emits the
block to the sink; every other outcome (including a throw) is silent. -/
def OnTransmitBlock (outcome : AddOutcome) (w : World) : Option HRes :=
  match w.next_block with
  | none => none
  | some nb =>
    match outcome with
    | AddOutcome.ADDED =>
      let w1 := { w with chain_blocks := w.chain_blocks ++ [nb] }
      let w2 := UpdateTxStatus w1 nb
      let w3 := { w2 with last_executed_block := nb.body.hash }
      some ⟨{ w3 with sink_blocks := w3.sink_blocks ++ [nb] }, State.RESET, 0⟩
    | _ => some ⟨w, State.RESET, 0⟩

/-- `BlockCoordinator::OnReset`. -/
def OnReset (now : Nat) (w : World) : HRes :=
  let w1 := if w.stake then
              match w.next_block with
              | some nb => { w with stake_updates := w.stake_updates ++ [nb] }
              | none =>
                match w.current_block with
                | some cb => { w with stake_updates := w.stake_updates ++ [cb] }
                | none => w
            else w
  ⟨{ w1 with current_block := none, next_block := none, pending_txs := none,
             blocks_to_common_ancestor := [],
             next_block_time := now + w1.block_period },
   State.SYNCHRONISING, 0⟩

/-- A quiescent base world used to build the concrete sample worlds and
as the default value of the projection helpers. -/
def baseStorage : StorageUnit :=
  { current := GENESIS_MERKLE_ROOT, lastCommit := GENESIS_MERKLE_ROOT,
    committed := [], txs := [] }

/-- Base world for the concrete sample configurations. -/
def baseW : World :=
  { chain_blocks := [], heaviest_hash := 0, storage := baseStorage,
    engine_last_processed := GENESIS_DIGEST, dag := none, dagCommits := [],
    current_block := none, next_block := none, pending_txs := none,
    blocks_to_common_ancestor := [], last_executed_block := GENESIS_DIGEST,
    have_asked_for_missing_txs := false, wait_before_deadline := 0,
    wait_tx_deadline := 0, next_block_time := 0, mining := false,
    mining_enabled := false, stake := false, synergetic := false,
    mining_address := 0, block_difficulty := 0, num_lanes := 1,
    num_slices := 1, block_period := 10000, status_executed := [],
    sink_blocks := [], missing_tx_calls := [], stake_updates := [] }

/-- Read a handler result under a default, for stating conclusions
without binders. -/
def hresOf (o : Option HRes) : HRes :=
  o.getD ⟨baseW, State.RESET, 0⟩

/-- Read an optional block under the default block. -/
def blockOf (o : Option Block) : Block :=
  o.getD defaultBlock

/-- Override the transaction index content (models transactions arriving
between `WAIT_FOR_TRANSACTIONS` invocations). -/
def setTxs (w : World) (ts : List Nat) : World :=
  { w with storage := { w.storage with txs := ts } }

/-- Timer bookkeeping of a first entry into WAIT_FOR_TRANSACTIONS:
restart the ask-peers countdown and clear the asked flag. -/
def entryUpdate (now : Nat) (w : World) : World :=
  { w with wait_before_deadline := now + WAIT_BEFORE_ASKING_FOR_MISSING_TX_MS,
           have_asked_for_missing_txs := false }

/-- Bookkeeping of the ask-peers step: record the peer call, set the
asked flag, arm the overall timeout. -/
def askUpdate (now : Nat) (p : List Nat) (w : World) : World :=
  { w with missing_tx_calls := w.missing_tx_calls ++ [p],
           have_asked_for_missing_txs := true,
           wait_tx_deadline := now + WAIT_FOR_TX_TIMEOUT_MS }

/-- Exit record of a `WAIT_FOR_TRANSACTIONS` run: the step index at which
the state was left, the state entered, and the world at that point. -/
structure TxWaitExit where
  step : Nat
  next : State
  w : World
deriving DecidableEq, Repr

/-- A run of the `WAIT_FOR_TRANSACTIONS` loop under the driver model in
which the requested 200 ms delay is honoured exactly: invocation `k`
happens at time `t0 + 200·k`, with `prevSame` false only on the first
entry.  `txsAt k` is the transaction index content and `dagAt k` the
`SatisfyEpoch` answer at step `k`.  Returns the exit, or `none` if the
fuel runs out (or a modelled null dereference occurs). -/
def txWaitRun (txsAt : Nat → List Nat) (dagAt : Nat → Bool) (t0 : Nat) :
    Nat → Nat → World → Option TxWaitExit
  | 0, _, _ => none
  | fuel+1, k, w =>
    match OnWaitForTransactions (t0 + TX_WAIT_RETRY_PERIOD_MS * k) (k != 0) (dagAt k)
            (setTxs w (txsAt k)) with
    | none => none
    | some r =>
      if r.next = State.WAIT_FOR_TRANSACTIONS then
        txWaitRun txsAt dagAt t0 fuel (k+1) r.w
      else
        some ⟨k, r.next, r.w⟩

/-- Loop invariant before the peer request has been issued. -/
def txInv1 (C0 : List Block) (cb : Block) (t0 : Nat) (w : World) : Prop :=
  w.current_block = some cb ∧ w.pending_txs.isSome = true ∧
  w.have_asked_for_missing_txs = false ∧
  w.wait_before_deadline = t0 + WAIT_BEFORE_ASKING_FOR_MISSING_TX_MS ∧
  w.chain_blocks = C0

/-- Loop invariant after the peer request has been issued. -/
def txInv2 (C0 : List Block) (cb : Block) (t0 : Nat) (w : World) : Prop :=
  w.current_block = some cb ∧
  w.have_asked_for_missing_txs = true ∧
  w.wait_tx_deadline = t0 + WAIT_BEFORE_ASKING_FOR_MISSING_TX_MS + WAIT_FOR_TX_TIMEOUT_MS ∧
  w.chain_blocks = C0

/-- Default exit used to read the fields of a run result. -/
def exitOf (res : Option TxWaitExit) : TxWaitExit :=
  res.getD ⟨0, State.RESET, baseW⟩

/-- The exit shape claimed for `WAIT_FOR_TRANSACTIONS`: within the
overall deadline budget, either success into SYNERGETIC_EXECUTION with
the pending set discharged, or RESET with the block purged. -/
def txGood (C0 : List Block) (cb : Block) (res : Option TxWaitExit) : Prop :=
  res.isSome = true ∧ (exitOf res).step ≤ 300 ∧
  TX_WAIT_RETRY_PERIOD_MS * (exitOf res).step ≤
    WAIT_BEFORE_ASKING_FOR_MISSING_TX_MS + WAIT_FOR_TX_TIMEOUT_MS +
    TX_WAIT_RETRY_PERIOD_MS ∧
  (((exitOf res).next = State.SYNERGETIC_EXECUTION ∧
    (exitOf res).w.pending_txs = none) ∨
   ((exitOf res).next = State.RESET ∧
    (exitOf res).w.chain_blocks = C0.filter (fun b => b.body.hash != cb.body.hash)))

/-- A genesis block whose recorded Merkle root (5) differs from the
state store's current root (7) in `c1W`. -/
def c1Cb : Block :=
  { body := { previous_hash := GENESIS_DIGEST, hash := 2, block_number := 1,
              miner := 0, merkle_hash := 5, slices := [[3]],
              log2_num_lanes := 0, dag_epoch := 0 },
    weight := 0, proof_target := 0 }

/-- World in which `c1Cb` reaches POST_EXEC_BLOCK_VALIDATION with a
mismatched state root. -/
def c1W : World :=
  { baseW with current_block := some c1Cb,
               storage := { baseStorage with current := 7 } }

/-- Chain of sample blocks for the fork-reconciliation runs: block `i`
has hash `i + 10`, previous hash `i + 9` and Merkle root `i + 500`. -/
def ceBlock (i : Nat) : Block :=
  { body := { previous_hash := i + 9, hash := i + 10, block_number := i,
              miner := 0, merkle_hash := i + 500, slices := [],
              log2_num_lanes := 0, dag_epoch := 0 },
    weight := 0, proof_target := 0 }

/-- A 102-entry ancestor path, tip (`ceBlock 101`) first, common parent
(`ceBlock 0`) last — long enough that one consumed element leaves the
cache at the fast-sync threshold, so it is retained and observable. -/
def cePath : List Block :=
  ((List.range 102).reverse).map ceBlock

/-- World about to run the fork-reconciliation branch of SYNCHRONISING
with `cePath` as the ancestor-path lookup result. -/
def ceW : World :=
  { baseW with current_block := some (ceBlock 101),
               engine_last_processed := 10,
               storage := { baseStorage with committed := [(500, 0)] } }

/-- A two-entry ancestor path (tip `ceBlock 1`, parent `ceBlock 0`). -/
def shortPath : List Block := [ceBlock 1, ceBlock 0]

/-- World for the short fork-reconciliation run. -/
def shortW : World :=
  { baseW with current_block := some (ceBlock 1),
               engine_last_processed := 10,
               storage := { baseStorage with committed := [(500, 0)] } }

/-- World for the catastrophic-inconsistency branch: the common parent's
state pair is not in the store. -/
def c5W : World :=
  { baseW with current_block := some (ceBlock 1),
               engine_last_processed := 10,
               dag := some 7,
               storage := { baseStorage with committed := [] } }

/-- Sample previous block sitting in the chain under `c4W`. -/
def c4Prev : Block :=
  { body := { previous_hash := GENESIS_DIGEST, hash := 20, block_number := 1,
              miner := 0, merkle_hash := 600, slices := [],
              log2_num_lanes := 0, dag_epoch := 0 },
    weight := 0, proof_target := 0 }

/-- Sample current block for the SYNERGETIC_EXECUTION runs. -/
def c4Cb : Block :=
  { body := { previous_hash := 20, hash := 21, block_number := 2,
              miner := 0, merkle_hash := 601, slices := [[40], [41]],
              log2_num_lanes := 0, dag_epoch := 0 },
    weight := 0, proof_target := 0 }

/-- World with a configured synergetic manager and a non-genesis current
block whose previous block is present in the chain. -/
def c4W : World :=
  { baseW with synergetic := true, current_block := some c4Cb,
               chain_blocks := [c4Prev, c4Cb] }

/-- World ready to mint: synchronised on `c4Prev`, mining on and the
block interval expired. -/
def c7W : World :=
  { baseW with current_block := some c4Prev, heaviest_hash := 20,
               mining := true, mining_enabled := true, next_block_time := 50,
               mining_address := 77, block_difficulty := 12, dag := some 3 }

/-- World in POST_EXEC_BLOCK_VALIDATION with no DAG configured, a
Merkle mismatch, and the previous block present in the chain. -/
def c9W : World :=
  { baseW with current_block := some c4Cb, chain_blocks := [c4Prev, c4Cb],
               dag := none, storage := { baseStorage with current := 999 } }

/-- A minted block about to be transmitted. -/
def c10Nb : Block :=
  { body := { previous_hash := 20, hash := 33, block_number := 2,
              miner := 77, merkle_hash := 700, slices := [[50]],
              log2_num_lanes := 0, dag_epoch := 0 },
    weight := 0, proof_target := 0 }

/-- World in TRANSMIT_BLOCK holding `c10Nb`. -/
def c10W : World :=
  { baseW with next_block := some c10Nb, last_executed_block := 20 }

/-- World in RELOAD_STATE whose heaviest block's snapshot is absent from
the state store, so the startup revert fails. -/
def c2ReloadW : World :=
  { baseW with current_block := some c4Cb,
               storage := { baseStorage with committed := [] },
               last_executed_block := 42 }

/-- World in POST_EXEC_BLOCK_VALIDATION taking the Merkle-mismatch
error path (DAG configured, previous block present). -/
def c2PostW : World :=
  { baseW with current_block := some c4Cb, chain_blocks := [c4Prev, c4Cb],
               dag := some 2, last_executed_block := 42,
               storage := { baseStorage with current := 999, committed := [(600, 1)] } }

/-- World in POST_EXEC_BLOCK_VALIDATION on the success path: the state
root matches the block's Merkle root and the engine has executed it. -/
def c1OkW : World :=
  { baseW with current_block := some c4Cb, chain_blocks := [c4Prev, c4Cb],
               engine_last_processed := 21,
               storage := { baseStorage with current := 601 } }

/-- A freshly packed mint block (hash still empty) whose body the
execution engine has just finished executing. -/
def c1Nb : Block :=
  { body := { previous_hash := 20, hash := EMPTY_DIGEST, block_number := 2,
              miner := 77, merkle_hash := EMPTY_DIGEST, slices := [[50]],
              log2_num_lanes := 0, dag_epoch := 0 },
    weight := 0, proof_target := 0 }

/-- World in WAIT_FOR_NEW_BLOCK_EXECUTION holding `c1Nb`, the engine
reporting the executed body's (still empty) digest. -/
def c1MintW : World :=
  { baseW with next_block := some c1Nb,
               engine_last_processed := EMPTY_DIGEST,
               storage := { baseStorage with current := 800 } }

/-- World entering WAIT_FOR_TRANSACTIONS with one never-arriving
transaction. -/
def c6W : World :=
  { baseW with current_block := some c4Cb, chain_blocks := [c4Prev, c4Cb] }

/-- C8: the executor status mapping is a total function from the five
engine states to exactly one coordinator view each: IDLE maps to IDLE,
ACTIVE to RUNNING, TRANSACTIONS_UNAVAILABLE to STALLED, and both
EXECUTION_ABORTED and EXECUTION_FAILED to ERROR. -/
theorem executor_status_mapping_total :
    QueryExecutorStatus ExecutionState.IDLE = ExecutionStatus.IDLE ∧
    QueryExecutorStatus ExecutionState.ACTIVE = ExecutionStatus.RUNNING ∧
    QueryExecutorStatus ExecutionState.TRANSACTIONS_UNAVAILABLE =
      ExecutionStatus.STALLED ∧
    QueryExecutorStatus ExecutionState.EXECUTION_ABORTED = ExecutionStatus.ERROR ∧
    QueryExecutorStatus ExecutionState.EXECUTION_FAILED = ExecutionStatus.ERROR := by
  decide

/-- C10: in TRANSMIT_BLOCK, if AddBlock returns anything other than
ADDED (ALREADY_PRESENT or REJECTED) or throws, then no transaction
status is updated, the last-executed digest is unchanged, the block sink
is not invoked, the chain is unchanged, and the next state is still
RESET: the mined block is silently dropped. -/
theorem transmit_non_added_silently_drops :
    ∀ (outcome : AddOutcome) (w : World) (r : HRes),
      outcome ≠ AddOutcome.ADDED →
      OnTransmitBlock outcome w = some r →
      r.w.status_executed = w.status_executed ∧
      r.w.last_executed_block = w.last_executed_block ∧
      r.w.sink_blocks = w.sink_blocks ∧
      r.w.chain_blocks = w.chain_blocks ∧
      r.next = State.RESET := by
  intro outcome w r hne hrun
  cases hnb : w.next_block with
  | none => simp [OnTransmitBlock, hnb] at hrun
  | some nb =>
    cases outcome with
    | ADDED => exact absurd rfl hne
    | ALREADY_PRESENT =>
      simp only [OnTransmitBlock, hnb, Option.some.injEq] at hrun
      subst hrun
      exact ⟨rfl, rfl, rfl, rfl, rfl⟩
    | REJECTED =>
      simp only [OnTransmitBlock, hnb, Option.some.injEq] at hrun
      subst hrun
      exact ⟨rfl, rfl, rfl, rfl, rfl⟩
    | THREW =>
      simp only [OnTransmitBlock, hnb, Option.some.injEq] at hrun
      subst hrun
      exact ⟨rfl, rfl, rfl, rfl, rfl⟩

/-- Witness for C10 at a concrete world: a REJECTED transmission leaves
every observable unchanged and resets. -/
theorem transmit_non_added_silently_drops_witness :
    (hresOf (OnTransmitBlock AddOutcome.REJECTED c10W)).w.status_executed =
      c10W.status_executed ∧
    (hresOf (OnTransmitBlock AddOutcome.REJECTED c10W)).w.last_executed_block =
      c10W.last_executed_block ∧
    (hresOf (OnTransmitBlock AddOutcome.REJECTED c10W)).w.sink_blocks =
      c10W.sink_blocks ∧
    (hresOf (OnTransmitBlock AddOutcome.REJECTED c10W)).w.chain_blocks =
      c10W.chain_blocks ∧
    (hresOf (OnTransmitBlock AddOutcome.REJECTED c10W)).next = State.RESET :=
  transmit_non_added_silently_drops AddOutcome.REJECTED c10W
    (hresOf (OnTransmitBlock AddOutcome.REJECTED c10W)) (by decide) rfl

/-- C9: for a coordinator configured without a DAG, the Merkle-mismatch
recovery branch of POST_EXEC_BLOCK_VALIDATION in which the previous
block is found in the chain invokes RevertToEpoch through the absent DAG
handle without a null check; in this total embedding that branch cannot
produce a next state — the handler's result is the null-dereference
error case. -/
theorem post_exec_null_dag_dereference :
    ∀ (w : World) (cb : Block),
      w.current_block = some cb →
      w.dag = none →
      cb.body.previous_hash ≠ GENESIS_DIGEST →
      w.storage.current ≠ cb.body.merkle_hash →
      (getBlock w cb.body.previous_hash).isSome = true →
      OnPostExecBlockValidation w = none := by
  intro w cb hcb hdag h1 h2 h3
  cases hgb : getBlock w cb.body.previous_hash with
  | none => rw [hgb] at h3; cases h3
  | some prev =>
    simp only [OnPostExecBlockValidation, hcb]
    rw [if_pos ⟨h1, h2⟩, hgb, hdag]

/-- Witness for C9 at a concrete world without a DAG. -/
theorem post_exec_null_dag_dereference_witness :
    OnPostExecBlockValidation c9W = none :=
  post_exec_null_dag_dereference c9W c4Cb (by decide) (by decide) (by decide)
    (by decide) (by decide)

/-- C4 counterexample: with a configured synergetic manager and a
non-genesis block, a failure of re-preparing the work queue transitions
to RESET but does NOT remove the current block from the chain — it is
still found afterwards — refuting the claim that any failure removes
the block. -/
theorem synergetic_prepare_failure_keeps_block_ce :
    (OnSynergeticExecution false true c4W).map (fun r => r.next) =
      some State.RESET ∧
    (OnSynergeticExecution false true c4W).map
      (fun r => getBlock r.w c4Cb.body.hash) = some (some c4Cb) := by
  constructor <;> decide

/-- C4 (amended): in SYNERGETIC_EXECUTION, for a configured synergetic
manager and a non-genesis current block whose previous block is in the
chain: a failure of validateWorkAndUpdateState removes the current block
from the chain and transitions to RESET; a failure of re-preparing the
work queue transitions to RESET without removing the block; on success
the machine transitions to SCHEDULE_BLOCK_EXECUTION. -/
theorem synergetic_execution_failure_paths :
    ∀ (prepareOk validateOk : Bool) (w : World) (cb prev : Block),
      w.current_block = some cb →
      w.synergetic = true →
      cb.body.previous_hash ≠ GENESIS_DIGEST →
      getBlock w cb.body.previous_hash = some prev →
      ((prepareOk = false →
          OnSynergeticExecution prepareOk validateOk w =
            some ⟨w, State.RESET, 0⟩) ∧
       (prepareOk = true → validateOk = false →
          OnSynergeticExecution prepareOk validateOk w =
            some ⟨chainRemoveBlock w cb.body.hash, State.RESET, 0⟩) ∧
       (prepareOk = true → validateOk = true →
          OnSynergeticExecution prepareOk validateOk w =
            some ⟨w, State.SCHEDULE_BLOCK_EXECUTION, 0⟩)) := by
  intro p v w cb prev hcb hsyn hng hgb
  refine ⟨fun h1 => ?_, fun h1 h2 => ?_, fun h1 h2 => ?_⟩ <;>
    subst h1 <;> try subst h2
  all_goals simp [OnSynergeticExecution, hcb, hsyn, hng, hgb]

/-- Witness for the amended C4 at a concrete world: validate-failure
removes the block; success schedules execution. -/
theorem synergetic_execution_failure_paths_witness :
    OnSynergeticExecution true false c4W =
      some ⟨chainRemoveBlock c4W c4Cb.body.hash, State.RESET, 0⟩ ∧
    OnSynergeticExecution true true c4W =
      some ⟨c4W, State.SCHEDULE_BLOCK_EXECUTION, 0⟩ :=
  ⟨(synergetic_execution_failure_paths true false c4W c4Cb c4Prev rfl rfl
      (by decide) (by decide)).2.1 rfl rfl,
   (synergetic_execution_failure_paths true true c4W c4Cb c4Prev rfl rfl
      (by decide) (by decide)).2.2 rfl rfl⟩

/-- C5: in SYNCHRONISING fork reconciliation, if the common parent's
(merkle_hash, block_number) pair does not exist in the state store, the
coordinator sets the execution engine's last-processed digest to
GENESIS, reverts the state store to the GENESIS Merkle root (and the
DAG to epoch 0, if present), requests a 5-second delay, and transitions
to RESET. -/
theorem synchronising_missing_ancestor_hard_reset :
    ∀ (pl : Option (List Block)) (w : World) (cb parent nxt : Block)
      (path rest : List Block),
      w.current_block = some cb →
      cb.body.hash ≠ EMPTY_DIGEST →
      w.engine_last_processed ≠ GENESIS_DIGEST →
      cb.body.hash ≠ w.engine_last_processed →
      (if w.blocks_to_common_ancestor.isEmpty then pl
       else some w.blocks_to_common_ancestor) = some path →
      path.reverse = parent :: nxt :: rest →
      w.storage.hashExists parent.body.merkle_hash parent.body.block_number = false →
      (OnSynchronising pl w).isSome = true ∧
      (hresOf (OnSynchronising pl w)).w.engine_last_processed = GENESIS_DIGEST ∧
      (hresOf (OnSynchronising pl w)).w.storage.current = GENESIS_MERKLE_ROOT ∧
      (hresOf (OnSynchronising pl w)).w.dag = w.dag.map (fun _ => 0) ∧
      (hresOf (OnSynchronising pl w)).delay = 5000 ∧
      (hresOf (OnSynchronising pl w)).next = State.RESET := by
  intro pl w cb parent nxt path rest hcb hne hlp hneq hlk hrev hex
  have hrun : OnSynchronising pl w =
      some ⟨{ w with blocks_to_common_ancestor := path, engine_last_processed := GENESIS_DIGEST, storage := { w.storage with current := GENESIS_MERKLE_ROOT }, dag := w.dag.map (fun _ => 0) }, State.RESET, 5000⟩ := by
    simp only [OnSynchronising, hcb]
    rw [if_neg hne, if_neg hlp, if_neg hneq, hlk]
    simp only [hrev, hex, Bool.false_eq_true, if_false]
    simp [StorageUnit.revertToHash]
  rw [hrun]
  exact ⟨rfl, rfl, rfl, rfl, rfl, rfl⟩

/-- Witness for C5 at a concrete world with a DAG configured. -/
theorem synchronising_missing_ancestor_hard_reset_witness :
    (OnSynchronising (some shortPath) c5W).isSome = true ∧
    (hresOf (OnSynchronising (some shortPath) c5W)).w.engine_last_processed =
      GENESIS_DIGEST ∧
    (hresOf (OnSynchronising (some shortPath) c5W)).w.storage.current =
      GENESIS_MERKLE_ROOT ∧
    (hresOf (OnSynchronising (some shortPath) c5W)).w.dag =
      c5W.dag.map (fun _ => 0) ∧
    (hresOf (OnSynchronising (some shortPath) c5W)).delay = 5000 ∧
    (hresOf (OnSynchronising (some shortPath) c5W)).next = State.RESET :=
  synchronising_missing_ancestor_hard_reset (some shortPath) c5W (ceBlock 1)
    (ceBlock 0) (ceBlock 1) shortPath [] rfl (by decide) (by decide) (by decide)
    (by decide) (by decide) (by decide)

/-- C3 counterexample: on a 102-entry tip-first ancestor path the
SYNCHRONISING fork step leaves the cache equal to the path with its
LAST (least-recent) element removed, which differs from the path with
its tip (first element) removed — refuting "pops the tip element". -/
theorem synchronising_pops_back_not_tip_ce :
    (OnSynchronising (some cePath) ceW).map
        (fun r => r.w.blocks_to_common_ancestor) = some cePath.dropLast ∧
    (OnSynchronising (some cePath) ceW).map (fun r => r.next) =
      some State.PRE_EXEC_BLOCK_VALIDATION ∧
    cePath.dropLast ≠ cePath.tail := by
  refine ⟨by decide, by decide, by decide⟩

/-- C3 (amended): in SYNCHRONISING fork reconciliation, after the common
parent's state is verified present and the state store (and DAG, if
present) is reverted to it, the coordinator sets current_block to the
next block to execute (the second-least-recent path entry), pops the
LEAST-RECENT element (the consumed common parent) from the AncestorPath
cache — consuming exactly one element per iteration — clears the cache
when its remaining length falls below the fast-sync threshold, and
transitions to PRE_EXEC_BLOCK_VALIDATION. -/
theorem synchronising_fork_consumes_least_recent :
    ∀ (pl : Option (List Block)) (w : World) (cb parent nxt : Block)
      (path rest : List Block),
      w.current_block = some cb →
      cb.body.hash ≠ EMPTY_DIGEST →
      w.engine_last_processed ≠ GENESIS_DIGEST →
      cb.body.hash ≠ w.engine_last_processed →
      (if w.blocks_to_common_ancestor.isEmpty then pl
       else some w.blocks_to_common_ancestor) = some path →
      path.reverse = parent :: nxt :: rest →
      w.storage.hashExists parent.body.merkle_hash parent.body.block_number = true →
      (OnSynchronising pl w).isSome = true ∧
      (hresOf (OnSynchronising pl w)).w.current_block = some nxt ∧
      (hresOf (OnSynchronising pl w)).w.storage.current = parent.body.merkle_hash ∧
      (hresOf (OnSynchronising pl w)).w.blocks_to_common_ancestor =
        (if path.dropLast.length < THRESHOLD_FOR_FAST_SYNCING then []
         else path.dropLast) ∧
      path.dropLast.length + 1 = path.length ∧
      (hresOf (OnSynchronising pl w)).next = State.PRE_EXEC_BLOCK_VALIDATION := by
  intro pl w cb parent nxt path rest hcb hne hlp hneq hlk hrev hex
  have hlen : path.dropLast.length + 1 = path.length := by
    have h1 : path.length = (parent :: nxt :: rest).length := by
      rw [← hrev]; exact (List.length_reverse path).symm
    have h2 : path.dropLast.length = path.length - 1 := List.length_dropLast path
    simp at h1
    omega
  have hrun : OnSynchronising pl w =
      some ⟨{ w with blocks_to_common_ancestor := (if path.dropLast.length < THRESHOLD_FOR_FAST_SYNCING then [] else path.dropLast), current_block := some nxt, storage := { w.storage with current := parent.body.merkle_hash }, dag := w.dag.map (fun _ => parent.body.block_number) }, State.PRE_EXEC_BLOCK_VALIDATION, 0⟩ := by
    simp only [OnSynchronising, hcb]
    rw [if_neg hne, if_neg hlp, if_neg hneq, hlk]
    simp only [hrev, hex, if_true]
    simp [StorageUnit.revertToHash, hex]
  rw [hrun]
  exact ⟨rfl, rfl, rfl, rfl, hlen, rfl⟩

/-- Witness for the amended C3 at a concrete world: on a two-entry path
the consumed-by-one cache falls below the threshold and is cleared. -/
theorem synchronising_fork_consumes_least_recent_witness :
    (OnSynchronising (some shortPath) shortW).isSome = true ∧
    (hresOf (OnSynchronising (some shortPath) shortW)).w.current_block =
      some (ceBlock 1) ∧
    (hresOf (OnSynchronising (some shortPath) shortW)).w.storage.current =
      (ceBlock 0).body.merkle_hash ∧
    (hresOf (OnSynchronising (some shortPath) shortW)).w.blocks_to_common_ancestor =
      (if shortPath.dropLast.length < THRESHOLD_FOR_FAST_SYNCING then []
       else shortPath.dropLast) ∧
    shortPath.dropLast.length + 1 = shortPath.length ∧
    (hresOf (OnSynchronising (some shortPath) shortW)).next =
      State.PRE_EXEC_BLOCK_VALIDATION :=
  synchronising_fork_consumes_least_recent (some shortPath) shortW (ceBlock 1)
    (ceBlock 0) (ceBlock 1) shortPath [] rfl (by decide) (by decide) (by decide)
    (by decide) (by decide) (by decide)

/-- C7: in SYNCHRONISED, when the heaviest tip is unchanged, mining is
on and enabled, the mint deadline has passed, and the stake oracle (if
configured) permits generation, the coordinator constructs next_block
with previous_hash = current_block.hash, block_number = current + 1,
miner = the mining identity, weight supplied by the stake oracle when
configured, proof difficulty set to the configured target, a DAG epoch
attached when a DAG is present, then clears current_block and
transitions to NEW_SYNERGETIC_EXECUTION. -/
theorem synchronised_mint_builds_next_block :
    ∀ (now : Nat) (previous : State) (stakeShould : Bool) (stakeWeight : Nat)
      (w : World) (cb : Block),
      w.current_block = some cb →
      w.heaviest_hash = cb.body.hash →
      w.mining = true → w.mining_enabled = true →
      w.next_block_time ≤ now →
      (w.stake = true → stakeShould = true) →
      (OnSynchronised now previous stakeShould stakeWeight w).isSome = true ∧
      (hresOf (OnSynchronised now previous stakeShould stakeWeight w)).next =
        State.NEW_SYNERGETIC_EXECUTION ∧
      (hresOf (OnSynchronised now previous stakeShould stakeWeight w)).w.current_block =
        none ∧
      ((hresOf (OnSynchronised now previous stakeShould stakeWeight w)).w.next_block).isSome =
        true ∧
      (blockOf (hresOf (OnSynchronised now previous stakeShould stakeWeight w)).w.next_block).body.previous_hash =
        cb.body.hash ∧
      (blockOf (hresOf (OnSynchronised now previous stakeShould stakeWeight w)).w.next_block).body.block_number =
        cb.body.block_number + 1 ∧
      (blockOf (hresOf (OnSynchronised now previous stakeShould stakeWeight w)).w.next_block).body.miner =
        w.mining_address ∧
      (w.stake = true →
        (blockOf (hresOf (OnSynchronised now previous stakeShould stakeWeight w)).w.next_block).weight =
          stakeWeight) ∧
      (blockOf (hresOf (OnSynchronised now previous stakeShould stakeWeight w)).w.next_block).proof_target =
        w.block_difficulty ∧
      (w.dag.isSome = true →
        (blockOf (hresOf (OnSynchronised now previous stakeShould stakeWeight w)).w.next_block).body.dag_epoch =
          DagCreateEpoch (cb.body.block_number + 1)) := by
  intro now prev ss sw w cb hcb hh hm hme hnt hstk
  have hne : ¬ (w.heaviest_hash ≠ cb.body.hash) := by simp [hh]
  cases hs : w.stake with
  | false =>
    cases hd : w.dag with
    | none =>
      simp only [OnSynchronised, hcb, hm, hme, hs, hd, if_neg hne]
      simp [hnt, hresOf, blockOf, defaultBlock, DagCreateEpoch]
    | some e =>
      simp only [OnSynchronised, hcb, hm, hme, hs, hd, if_neg hne]
      simp [hnt, hresOf, blockOf, defaultBlock, DagCreateEpoch]
  | true =>
    have hss : ss = true := hstk hs
    cases hd : w.dag with
    | none =>
      simp only [OnSynchronised, hcb, hm, hme, hs, hss, hd, if_neg hne]
      simp [hnt, hresOf, blockOf, defaultBlock, DagCreateEpoch]
    | some e =>
      simp only [OnSynchronised, hcb, hm, hme, hs, hss, hd, if_neg hne]
      simp [hnt, hresOf, blockOf, defaultBlock, DagCreateEpoch]

/-- Witness for C7 at a concrete mining world with a DAG and no stake
oracle. -/
theorem synchronised_mint_builds_next_block_witness :
    (OnSynchronised 100 State.SYNCHRONISING true 0 c7W).isSome = true ∧
    (hresOf (OnSynchronised 100 State.SYNCHRONISING true 0 c7W)).next =
      State.NEW_SYNERGETIC_EXECUTION ∧
    (hresOf (OnSynchronised 100 State.SYNCHRONISING true 0 c7W)).w.current_block =
      none ∧
    ((hresOf (OnSynchronised 100 State.SYNCHRONISING true 0 c7W)).w.next_block).isSome =
      true ∧
    (blockOf (hresOf (OnSynchronised 100 State.SYNCHRONISING true 0 c7W)).w.next_block).body.previous_hash =
      c4Prev.body.hash ∧
    (blockOf (hresOf (OnSynchronised 100 State.SYNCHRONISING true 0 c7W)).w.next_block).body.block_number =
      c4Prev.body.block_number + 1 ∧
    (blockOf (hresOf (OnSynchronised 100 State.SYNCHRONISING true 0 c7W)).w.next_block).body.miner =
      c7W.mining_address ∧
    (c7W.stake = true →
      (blockOf (hresOf (OnSynchronised 100 State.SYNCHRONISING true 0 c7W)).w.next_block).weight =
        0) ∧
    (blockOf (hresOf (OnSynchronised 100 State.SYNCHRONISING true 0 c7W)).w.next_block).proof_target =
      c7W.block_difficulty ∧
    (c7W.dag.isSome = true →
      (blockOf (hresOf (OnSynchronised 100 State.SYNCHRONISING true 0 c7W)).w.next_block).body.dag_epoch =
        DagCreateEpoch (c4Prev.body.block_number + 1)) :=
  synchronised_mint_builds_next_block 100 State.SYNCHRONISING true 0 c7W c4Prev
    (by decide) (by decide) (by decide) (by decide) (by decide) (fun _ => rfl)

/-- C1 counterexample: a genesis block (previous_hash = GENESIS) whose
recorded merkle_hash (5) differs from the state store's current root (7)
still takes the POST_EXEC_BLOCK_VALIDATION success path — the state is
committed (lastCommit becomes 7) and the last-executed digest advances
to the block's hash — yet immediately after the commit the state
store's current root (7) differs from the block's merkle_hash (5). -/
theorem post_exec_commit_genesis_mismatch_ce :
    (OnPostExecBlockValidation c1W).map (fun r => r.w.storage.lastCommit) =
      some 7 ∧
    (OnPostExecBlockValidation c1W).map (fun r => r.w.last_executed_block) =
      some c1Cb.body.hash ∧
    (OnPostExecBlockValidation c1W).map (fun r => r.w.storage.current) =
      some 7 ∧
    c1Cb.body.merkle_hash = 5 ∧ (7 : Nat) ≠ 5 := by
  refine ⟨by decide, by decide, by decide, by decide, by decide⟩

/-- C1 (amended): for every NON-GENESIS block B committed on the
POST_EXEC_BLOCK_VALIDATION success path, and for every block committed
while minting (WAIT_FOR_NEW_BLOCK_EXECUTION IDLE path), immediately
after the commit the state store's current Merkle root equals
B.merkle_hash, and — under the engine contract that its last-processed
digest equals the executed body's digest at handler entry — the
execution engine's last-processed digest equals B.hash.  (For genesis
blocks the Merkle check is skipped, so the root equality can fail;
for the minted block B.hash is the still-unclosed pre-proof digest.) -/
theorem commit_safety_amended :
    (∀ (w : World) (cb : Block) (r : HRes),
       w.current_block = some cb →
       cb.body.previous_hash ≠ GENESIS_DIGEST →
       w.storage.current = cb.body.merkle_hash →
       w.engine_last_processed = cb.body.hash →
       OnPostExecBlockValidation w = some r →
       r.w.storage.current = cb.body.merkle_hash ∧
       r.w.engine_last_processed = cb.body.hash ∧
       r.w.last_executed_block = cb.body.hash) ∧
    (∀ (w : World) (nb : Block) (r : HRes),
       w.next_block = some nb →
       w.engine_last_processed = nb.body.hash →
       OnWaitForNewBlockExecution ExecutionState.IDLE w = some r →
       (r.w.next_block).isSome = true ∧
       (blockOf r.w.next_block).body.hash = nb.body.hash ∧
       r.w.storage.current = (blockOf r.w.next_block).body.merkle_hash ∧
       r.w.engine_last_processed = (blockOf r.w.next_block).body.hash) := by
  constructor
  · intro w cb r hcb hng hcur heng hrun
    have hnot : ¬ (cb.body.previous_hash ≠ GENESIS_DIGEST ∧
        w.storage.current ≠ cb.body.merkle_hash) := by
      intro h
      exact h.2 hcur
    cases hd : w.dag with
    | none =>
      simp only [OnPostExecBlockValidation, UpdateTxStatus, hcb, if_neg hnot, hd,
        Option.some.injEq] at hrun
      subst hrun
      refine ⟨?_, ?_, ?_⟩ <;> simp [StorageUnit.commit, hcur, heng]
    | some e =>
      simp only [OnPostExecBlockValidation, UpdateTxStatus, hcb, if_neg hnot, hd,
        Option.some.injEq] at hrun
      subst hrun
      refine ⟨?_, ?_, ?_⟩ <;> simp [StorageUnit.commit, hcur, heng]
  · intro w nb r hnb heng hrun
    cases hd : w.dag with
    | none =>
      simp only [OnWaitForNewBlockExecution, QueryExecutorStatus, hnb, hd,
        Option.some.injEq] at hrun
      subst hrun
      refine ⟨rfl, ?_, ?_, ?_⟩ <;> simp [StorageUnit.commit, blockOf, heng]
    | some e =>
      simp only [OnWaitForNewBlockExecution, QueryExecutorStatus, hnb, hd,
        Option.some.injEq] at hrun
      subst hrun
      refine ⟨rfl, ?_, ?_, ?_⟩ <;> simp [StorageUnit.commit, blockOf, heng]

/-- Witness for the amended C1: one non-genesis executed block and one
minted block, at concrete worlds. -/
theorem commit_safety_amended_witness :
    ((hresOf (OnPostExecBlockValidation c1OkW)).w.storage.current =
       c4Cb.body.merkle_hash ∧
     (hresOf (OnPostExecBlockValidation c1OkW)).w.engine_last_processed =
       c4Cb.body.hash ∧
     (hresOf (OnPostExecBlockValidation c1OkW)).w.last_executed_block =
       c4Cb.body.hash) ∧
    (((hresOf (OnWaitForNewBlockExecution ExecutionState.IDLE c1MintW)).w.next_block).isSome =
       true ∧
     (blockOf (hresOf (OnWaitForNewBlockExecution ExecutionState.IDLE c1MintW)).w.next_block).body.hash =
       c1Nb.body.hash ∧
     (hresOf (OnWaitForNewBlockExecution ExecutionState.IDLE c1MintW)).w.storage.current =
       (blockOf (hresOf (OnWaitForNewBlockExecution ExecutionState.IDLE c1MintW)).w.next_block).body.merkle_hash ∧
     (hresOf (OnWaitForNewBlockExecution ExecutionState.IDLE c1MintW)).w.engine_last_processed =
       (blockOf (hresOf (OnWaitForNewBlockExecution ExecutionState.IDLE c1MintW)).w.next_block).body.hash) :=
  ⟨commit_safety_amended.1 c1OkW c4Cb (hresOf (OnPostExecBlockValidation c1OkW))
     rfl (by decide) (by decide) (by decide) rfl,
   commit_safety_amended.2 c1MintW c1Nb
     (hresOf (OnWaitForNewBlockExecution ExecutionState.IDLE c1MintW))
     rfl (by decide) rfl⟩

/-- Helper: the filter/exit tail of WAIT_FOR_TRANSACTIONS never touches
the internal last-executed digest. -/
theorem waitTxTail_last_exec (d : Bool) (cb : Block) (w : World) :
    (waitTxTail d cb w).w.last_executed_block = w.last_executed_block := by
  simp only [waitTxTail]
  repeat' split
  all_goals rfl

/-- C2: the internal last-executed digest advances only on the
POST_EXEC success path, on the ADDED transmission path and on the
startup reload whose revert succeeded; it is never advanced by an error
path.  Each conjunct states, for one handler, that on every RESET
outcome caused by a validation, execution, revert or transmission
failure (for handlers that can also succeed, under the hypotheses
selecting the failure path; for the others, on every path)
last_executed_block is unchanged by that step. -/
theorem last_executed_unchanged_on_error_paths :
    (∀ (w : World) (cb : Block) (r : HRes),
       w.current_block = some cb →
       cb.body.previous_hash ≠ GENESIS_DIGEST →
       (w.storage.revertToHash cb.body.merkle_hash cb.body.block_number).1 = false →
       OnReloadState w = some r →
       r.w.last_executed_block = w.last_executed_block) ∧
    (∀ (pl : Option (List Block)) (w : World) (r : HRes),
       OnSynchronising pl w = some r →
       r.w.last_executed_block = w.last_executed_block) ∧
    (∀ (sv : Bool) (sw : Nat) (ps synp : Bool) (w : World) (r : HRes),
       OnPreExecBlockValidation sv sw ps synp w = some r →
       r.w.last_executed_block = w.last_executed_block) ∧
    (∀ (now : Nat) (ps dr : Bool) (w : World) (r : HRes),
       OnWaitForTransactions now ps dr w = some r →
       r.w.last_executed_block = w.last_executed_block) ∧
    (∀ (p v : Bool) (w : World) (r : HRes),
       OnSynergeticExecution p v w = some r →
       r.w.last_executed_block = w.last_executed_block) ∧
    (∀ (s : Bool) (w : World),
       (OnScheduleBlockExecution s w).w.last_executed_block =
         w.last_executed_block) ∧
    (∀ (es : ExecutionState) (w : World),
       (OnWaitForExecution es w).w.last_executed_block = w.last_executed_block) ∧
    (∀ (w : World) (cb : Block) (r : HRes),
       w.current_block = some cb →
       cb.body.previous_hash ≠ GENESIS_DIGEST →
       w.storage.current ≠ cb.body.merkle_hash →
       OnPostExecBlockValidation w = some r →
       r.w.last_executed_block = w.last_executed_block) ∧
    (∀ (p v : Bool) (w : World) (r : HRes),
       OnNewSynergeticExecution p v w = some r →
       r.w.last_executed_block = w.last_executed_block) ∧
    (∀ (now : Nat) (th : Bool) (sl : List (List Nat)) (w : World) (r : HRes),
       OnPackNewBlock now th sl w = some r →
       r.w.last_executed_block = w.last_executed_block) ∧
    (∀ (s : Bool) (w : World),
       (OnExecuteNewBlock s w).w.last_executed_block = w.last_executed_block) ∧
    (∀ (es : ExecutionState) (w : World) (r : HRes),
       OnWaitForNewBlockExecution es w = some r →
       r.w.last_executed_block = w.last_executed_block) ∧
    (∀ (m : Bool) (nh : Nat) (w : World) (r : HRes),
       OnProofSearch m nh w = some r →
       r.w.last_executed_block = w.last_executed_block) ∧
    (∀ (o : AddOutcome) (w : World) (r : HRes),
       o ≠ AddOutcome.ADDED →
       OnTransmitBlock o w = some r →
       r.w.last_executed_block = w.last_executed_block) := by
  refine ⟨?_, ?_, ?_, ?_, ?_, ?_, ?_, ?_, ?_, ?_, ?_, ?_, ?_, ?_⟩
  · -- OnReloadState, failed revert
    intro w cb r hcb hng hrev h
    simp only [OnReloadState, hcb] at h
    rw [if_neg hng] at h
    simp only [hrev, Bool.false_eq_true, if_false, Option.some.injEq] at h
    subst h
    rfl
  · -- OnSynchronising, all paths
    intro pl w r h
    simp only [OnSynchronising] at h
    repeat' split at h
    all_goals first
      | (simp only [Option.some.injEq] at h; subst h; rfl)
      | simp at h
  · -- OnPreExecBlockValidation, all paths
    intro sv sw ps synp w r h
    simp only [OnPreExecBlockValidation] at h
    repeat' split at h
    all_goals first
      | (simp only [Option.some.injEq] at h; subst h; rfl)
      | simp at h
  · -- OnWaitForTransactions, all paths
    intro now ps dr w r h
    simp only [OnWaitForTransactions] at h
    repeat' split at h
    all_goals first
      | (simp only [Option.some.injEq] at h; subst h;
         first | rfl | rw [waitTxTail_last_exec])
      | simp at h
  · -- OnSynergeticExecution, all paths
    intro p v w r h
    simp only [OnSynergeticExecution] at h
    repeat' split at h
    all_goals first
      | (simp only [Option.some.injEq] at h; subst h; rfl)
      | simp at h
  · -- OnScheduleBlockExecution
    intro s w
    unfold OnScheduleBlockExecution
    repeat' split
    all_goals rfl
  · -- OnWaitForExecution
    intro es w
    unfold OnWaitForExecution
    repeat' split
    all_goals rfl
  · -- OnPostExecBlockValidation, Merkle-mismatch path
    intro w cb r hcb hng hmm h
    simp only [OnPostExecBlockValidation, hcb] at h
    rw [if_pos ⟨hng, hmm⟩] at h
    repeat' split at h
    all_goals first
      | (simp only [Option.some.injEq] at h; subst h; rfl)
      | simp at h
  · -- OnNewSynergeticExecution, all paths
    intro p v w r h
    simp only [OnNewSynergeticExecution] at h
    repeat' split at h
    all_goals first
      | (simp only [Option.some.injEq] at h; subst h; rfl)
      | simp at h
  · -- OnPackNewBlock, all paths
    intro now th sl w r h
    simp only [OnPackNewBlock] at h
    repeat' split at h
    all_goals first
      | (simp only [Option.some.injEq] at h; subst h; rfl)
      | simp at h
  · -- OnExecuteNewBlock
    intro s w
    unfold OnExecuteNewBlock
    repeat' split
    all_goals rfl
  · -- OnWaitForNewBlockExecution, all paths
    intro es w r h
    simp only [OnWaitForNewBlockExecution] at h
    repeat' split at h
    all_goals first
      | (simp only [Option.some.injEq] at h; subst h; rfl)
      | simp at h
  · -- OnProofSearch, all paths
    intro m nh w r h
    simp only [OnProofSearch] at h
    repeat' split at h
    all_goals first
      | (simp only [Option.some.injEq] at h; subst h; rfl)
      | simp at h
  · -- OnTransmitBlock, non-ADDED outcomes
    intro o w r ho h
    cases hnb : w.next_block with
    | none => simp [OnTransmitBlock, hnb] at h
    | some nb =>
      cases o with
      | ADDED => exact absurd rfl ho
      | ALREADY_PRESENT =>
        simp only [OnTransmitBlock, hnb, Option.some.injEq] at h
        subst h; rfl
      | REJECTED =>
        simp only [OnTransmitBlock, hnb, Option.some.injEq] at h
        subst h; rfl
      | THREW =>
        simp only [OnTransmitBlock, hnb, Option.some.injEq] at h
        subst h; rfl

/-- Witness for C2: three representative error paths (failed startup
revert, Merkle-mismatch post-validation, throwing transmission) at
concrete worlds. -/
theorem last_executed_unchanged_on_error_paths_witness :
    (hresOf (OnReloadState c2ReloadW)).w.last_executed_block =
      c2ReloadW.last_executed_block ∧
    (hresOf (OnPostExecBlockValidation c2PostW)).w.last_executed_block =
      c2PostW.last_executed_block ∧
    (hresOf (OnTransmitBlock AddOutcome.THREW c10W)).w.last_executed_block =
      c10W.last_executed_block :=
  ⟨last_executed_unchanged_on_error_paths.1 c2ReloadW c4Cb
     (hresOf (OnReloadState c2ReloadW)) rfl (by decide) (by decide) rfl,
   last_executed_unchanged_on_error_paths.2.2.2.2.2.2.2.1 c2PostW c4Cb
     (hresOf (OnPostExecBlockValidation c2PostW)) rfl (by decide) (by decide) rfl,
   last_executed_unchanged_on_error_paths.2.2.2.2.2.2.2.2.2.2.2.2.2
     AddOutcome.THREW c10W (hresOf (OnTransmitBlock AddOutcome.THREW c10W))
     (by decide) rfl⟩

/-- Helper: fields of the wait-tail result that are carried over
unchanged, and the exit dichotomy (success with the pending set
discharged, or stay with a cached pending set). -/
theorem waitTxTail_spec (d : Bool) (cb : Block) (w : World) :
    ((waitTxTail d cb w).w.current_block = w.current_block ∧
     (waitTxTail d cb w).w.have_asked_for_missing_txs =
       w.have_asked_for_missing_txs ∧
     (waitTxTail d cb w).w.wait_before_deadline = w.wait_before_deadline ∧
     (waitTxTail d cb w).w.wait_tx_deadline = w.wait_tx_deadline ∧
     (waitTxTail d cb w).w.chain_blocks = w.chain_blocks) ∧
    (((waitTxTail d cb w).next = State.SYNERGETIC_EXECUTION ∧
      (waitTxTail d cb w).w.pending_txs = none) ∨
     ((waitTxTail d cb w).next = State.WAIT_FOR_TRANSACTIONS ∧
      ((waitTxTail d cb w).w.pending_txs).isSome = true)) := by
  constructor
  · simp only [waitTxTail]
    repeat' split
    all_goals exact ⟨rfl, rfl, rfl, rfl, rfl⟩
  · simp only [waitTxTail]
    repeat' split
    all_goals first
      | exact Or.inl ⟨rfl, rfl⟩
      | exact Or.inr ⟨rfl, rfl⟩

/-- Helper: shape of a first entry into WAIT_FOR_TRANSACTIONS — restart
the ask-peers countdown, clear the asked flag, run the tail. -/
theorem onWaitTx_entry (now : Nat) (dr : Bool) (w : World) (cb : Block)
    (hcb : w.current_block = some cb) :
    OnWaitForTransactions now false dr w =
      some (waitTxTail dr cb (entryUpdate now w)) := by
  simp only [OnWaitForTransactions, entryUpdate, hcb, Bool.false_eq_true, if_false]

/-- Helper: re-entry before the ask-peers deadline, not yet asked. -/
theorem onWaitTx_not_asked_early (now : Nat) (dr : Bool) (w : World) (cb : Block)
    (hcb : w.current_block = some cb)
    (hask : w.have_asked_for_missing_txs = false)
    (hlt : ¬ (w.wait_before_deadline ≤ now)) :
    OnWaitForTransactions now true dr w = some (waitTxTail dr cb w) := by
  simp only [OnWaitForTransactions, hcb, hask, Bool.false_eq_true, if_false,
    if_true]
  rw [if_neg hlt]

/-- Helper: re-entry past the ask-peers deadline — issue the peer call,
set the asked flag, arm the overall timeout, run the tail. -/
theorem onWaitTx_ask (now : Nat) (dr : Bool) (w : World) (cb : Block) (p : List Nat)
    (hcb : w.current_block = some cb)
    (hask : w.have_asked_for_missing_txs = false)
    (hp : w.pending_txs = some p)
    (hge : w.wait_before_deadline ≤ now) :
    OnWaitForTransactions now true dr w =
      some (waitTxTail dr cb (askUpdate now p w)) := by
  simp only [OnWaitForTransactions, askUpdate, hcb, hask, hp, Bool.false_eq_true,
    if_false, if_true]
  rw [if_pos hge]

/-- Helper: re-entry with the peer call issued and the overall timeout
expired — the block is deemed unreachable, removed, RESET. -/
theorem onWaitTx_timeout (now : Nat) (dr : Bool) (w : World) (cb : Block)
    (hcb : w.current_block = some cb)
    (hask : w.have_asked_for_missing_txs = true)
    (hge : w.wait_tx_deadline ≤ now) :
    OnWaitForTransactions now true dr w =
      some ⟨chainRemoveBlock w cb.body.hash, State.RESET, 0⟩ := by
  simp only [OnWaitForTransactions, hcb, hask, if_true]
  rw [if_pos hge]

/-- Helper: re-entry with the peer call issued, timeout not yet
expired. -/
theorem onWaitTx_asked_waiting (now : Nat) (dr : Bool) (w : World) (cb : Block)
    (hcb : w.current_block = some cb)
    (hask : w.have_asked_for_missing_txs = true)
    (hlt : ¬ (w.wait_tx_deadline ≤ now)) :
    OnWaitForTransactions now true dr w = some (waitTxTail dr cb w) := by
  simp only [OnWaitForTransactions, hcb, hask, if_true]
  rw [if_neg hlt]

/-- Helper: bounded-exit induction for the WAIT_FOR_TRANSACTIONS loop
under exactly-honoured 200 ms re-entries: from any re-entry step with
the phase invariant, the run exits in the claimed shape by step 300. -/
theorem txWaitRun_phase_bound (txsAt : Nat → List Nat) (dagAt : Nat → Bool)
    (t0 : Nat) (C0 : List Block) (cb : Block) :
    ∀ (fuel k : Nat) (w : World), k + fuel = 301 → 1 ≤ k →
      ((k ≤ 150 ∧ txInv1 C0 cb t0 w) ∨
       (151 ≤ k ∧ k ≤ 300 ∧ txInv2 C0 cb t0 w)) →
      txGood C0 cb (txWaitRun txsAt dagAt t0 fuel k w) := by
  intro fuel
  induction fuel with
  | zero =>
    intro k w hk h1 hinv
    exfalso
    rcases hinv with ⟨hk1, _⟩ | ⟨hk1, hk2, _⟩ <;> omega
  | succ n ih =>
    intro k w hk h1 hinv
    obtain ⟨m, rfl⟩ : ∃ m, k = m + 1 := ⟨k - 1, by omega⟩
    have hbne : ((m + 1 : Nat) != 0) = true := rfl
    rcases hinv with ⟨hk150, hcb, hps, hask, hdl, hch⟩ |
      ⟨hk151, hk300, hcb, hask, hdl, hch⟩
    · -- phase 1: peer request not yet issued
      by_cases hk' : m + 1 = 150
      · -- the ask step
        obtain ⟨p, hp⟩ := Option.isSome_iff_exists.mp hps
        have hge : (setTxs w (txsAt (m+1))).wait_before_deadline ≤
            t0 + TX_WAIT_RETRY_PERIOD_MS * (m+1) := by
          show w.wait_before_deadline ≤ _
          rw [hdl, hk']
          simp only [WAIT_BEFORE_ASKING_FOR_MISSING_TX_MS, TX_WAIT_RETRY_PERIOD_MS]
          omega
        have hstep := onWaitTx_ask (t0 + TX_WAIT_RETRY_PERIOD_MS * (m+1))
          (dagAt (m+1)) (setTxs w (txsAt (m+1))) cb p hcb hask hp hge
        obtain ⟨hpres, hdisj⟩ := waitTxTail_spec (dagAt (m+1)) cb
          (askUpdate (t0 + TX_WAIT_RETRY_PERIOD_MS * (m+1)) p (setTxs w (txsAt (m+1))))
        simp only [txWaitRun, hbne]
        simp only [hstep]
        rcases hdisj with ⟨hnext, hpend⟩ | ⟨hnext, hpend⟩
        · have hne : (waitTxTail (dagAt (m+1)) cb
              (askUpdate (t0 + TX_WAIT_RETRY_PERIOD_MS * (m+1)) p
                (setTxs w (txsAt (m+1))))).next ≠
              State.WAIT_FOR_TRANSACTIONS := by
            rw [hnext]; decide
          rw [if_neg hne]
          simp only [txGood, exitOf, Option.getD_some, Option.isSome_some]
          refine ⟨trivial, by omega, ?_, Or.inl ⟨hnext, hpend⟩⟩
          simp only [WAIT_BEFORE_ASKING_FOR_MISSING_TX_MS,
            WAIT_FOR_TX_TIMEOUT_MS, TX_WAIT_RETRY_PERIOD_MS]
          omega
        · rw [if_pos hnext]
          refine ih (m + 2) _ (by omega) (by omega) (Or.inr ⟨by omega, by omega, ?_, ?_, ?_, ?_⟩)
          · exact hpres.1.trans hcb
          · exact hpres.2.1.trans rfl
          · refine hpres.2.2.2.1.trans ?_
            show t0 + TX_WAIT_RETRY_PERIOD_MS * (m+1) + WAIT_FOR_TX_TIMEOUT_MS = _
            simp only [WAIT_BEFORE_ASKING_FOR_MISSING_TX_MS, WAIT_FOR_TX_TIMEOUT_MS,
              TX_WAIT_RETRY_PERIOD_MS]
            omega
          · exact hpres.2.2.2.2.trans hch
      · -- an early re-entry, deadline not reached
        have hlt : ¬ ((setTxs w (txsAt (m+1))).wait_before_deadline ≤
            t0 + TX_WAIT_RETRY_PERIOD_MS * (m+1)) := by
          show ¬ (w.wait_before_deadline ≤ _)
          rw [hdl]
          simp only [WAIT_BEFORE_ASKING_FOR_MISSING_TX_MS, TX_WAIT_RETRY_PERIOD_MS]
          omega
        have hstep := onWaitTx_not_asked_early (t0 + TX_WAIT_RETRY_PERIOD_MS * (m+1))
          (dagAt (m+1)) (setTxs w (txsAt (m+1))) cb hcb hask hlt
        obtain ⟨hpres, hdisj⟩ := waitTxTail_spec (dagAt (m+1)) cb (setTxs w (txsAt (m+1)))
        simp only [txWaitRun, hbne]
        simp only [hstep]
        rcases hdisj with ⟨hnext, hpend⟩ | ⟨hnext, hpend⟩
        · have hne : (waitTxTail (dagAt (m+1)) cb (setTxs w (txsAt (m+1)))).next ≠
              State.WAIT_FOR_TRANSACTIONS := by
            rw [hnext]; decide
          rw [if_neg hne]
          simp only [txGood, exitOf, Option.getD_some, Option.isSome_some]
          refine ⟨trivial, by omega, ?_, Or.inl ⟨hnext, hpend⟩⟩
          simp only [WAIT_BEFORE_ASKING_FOR_MISSING_TX_MS,
            WAIT_FOR_TX_TIMEOUT_MS, TX_WAIT_RETRY_PERIOD_MS]
          omega
        · rw [if_pos hnext]
          refine ih (m + 2) _ (by omega) (by omega) (Or.inl ⟨by omega, ?_, hpend, ?_, ?_, ?_⟩)
          · exact hpres.1.trans hcb
          · exact hpres.2.1.trans hask
          · exact hpres.2.2.1.trans hdl
          · exact hpres.2.2.2.2.trans hch
    · -- phase 2: peer request issued
      by_cases hk' : m + 1 = 300
      · -- timeout expired: remove the block, RESET
        have hge : (setTxs w (txsAt (m+1))).wait_tx_deadline ≤
            t0 + TX_WAIT_RETRY_PERIOD_MS * (m+1) := by
          show w.wait_tx_deadline ≤ _
          rw [hdl, hk']
          simp only [WAIT_BEFORE_ASKING_FOR_MISSING_TX_MS, WAIT_FOR_TX_TIMEOUT_MS,
            TX_WAIT_RETRY_PERIOD_MS]
          omega
        have hstep := onWaitTx_timeout (t0 + TX_WAIT_RETRY_PERIOD_MS * (m+1))
          (dagAt (m+1)) (setTxs w (txsAt (m+1))) cb hcb hask hge
        simp only [txWaitRun, hbne]
        simp only [hstep]
        have hne : (⟨chainRemoveBlock (setTxs w (txsAt (m+1))) cb.body.hash,
            State.RESET, 0⟩ : HRes).next ≠ State.WAIT_FOR_TRANSACTIONS := by
          intro hcon
          cases hcon
        rw [if_neg hne]
        simp only [txGood, exitOf, Option.getD_some, Option.isSome_some]
        refine ⟨trivial, by omega, ?_, Or.inr ⟨trivial, ?_⟩⟩
        · simp only [WAIT_BEFORE_ASKING_FOR_MISSING_TX_MS,
            WAIT_FOR_TX_TIMEOUT_MS, TX_WAIT_RETRY_PERIOD_MS]
          omega
        · show (setTxs w (txsAt (m+1))).chain_blocks.filter _ = _
          rw [show (setTxs w (txsAt (m+1))).chain_blocks = w.chain_blocks from rfl, hch]
      · -- timeout not yet expired
        have hlt : ¬ ((setTxs w (txsAt (m+1))).wait_tx_deadline ≤
            t0 + TX_WAIT_RETRY_PERIOD_MS * (m+1)) := by
          show ¬ (w.wait_tx_deadline ≤ _)
          rw [hdl]
          simp only [WAIT_BEFORE_ASKING_FOR_MISSING_TX_MS, WAIT_FOR_TX_TIMEOUT_MS,
            TX_WAIT_RETRY_PERIOD_MS]
          omega
        have hstep := onWaitTx_asked_waiting (t0 + TX_WAIT_RETRY_PERIOD_MS * (m+1))
          (dagAt (m+1)) (setTxs w (txsAt (m+1))) cb hcb hask hlt
        obtain ⟨hpres, hdisj⟩ := waitTxTail_spec (dagAt (m+1)) cb (setTxs w (txsAt (m+1)))
        simp only [txWaitRun, hbne]
        simp only [hstep]
        rcases hdisj with ⟨hnext, hpend⟩ | ⟨hnext, hpend⟩
        · have hne : (waitTxTail (dagAt (m+1)) cb (setTxs w (txsAt (m+1)))).next ≠
              State.WAIT_FOR_TRANSACTIONS := by
            rw [hnext]; decide
          rw [if_neg hne]
          simp only [txGood, exitOf, Option.getD_some, Option.isSome_some]
          refine ⟨trivial, by omega, ?_, Or.inl ⟨hnext, hpend⟩⟩
          simp only [WAIT_BEFORE_ASKING_FOR_MISSING_TX_MS,
            WAIT_FOR_TX_TIMEOUT_MS, TX_WAIT_RETRY_PERIOD_MS]
          omega
        · rw [if_pos hnext]
          refine ih (m + 2) _ (by omega) (by omega) (Or.inr ⟨by omega, by omega, ?_, ?_, ?_, ?_⟩)
          · exact hpres.1.trans hcb
          · exact hpres.2.1.trans hask
          · exact hpres.2.2.2.1.trans hdl
          · exact hpres.2.2.2.2.trans hch

/-- Helper: one-step unfolding of the run. -/
theorem txWaitRun_succ (txsAt : Nat → List Nat) (dagAt : Nat → Bool)
    (t0 fuel k : Nat) (w : World) :
    txWaitRun txsAt dagAt t0 (fuel + 1) k w =
      match OnWaitForTransactions (t0 + TX_WAIT_RETRY_PERIOD_MS * k) (k != 0)
              (dagAt k) (setTxs w (txsAt k)) with
      | none => none
      | some r =>
        if r.next = State.WAIT_FOR_TRANSACTIONS then
          txWaitRun txsAt dagAt t0 fuel (k + 1) r.w
        else
          some ⟨k, r.next, r.w⟩ := rfl

/-- C6: for every run entering WAIT_FOR_TRANSACTIONS — under the driver
model in which the requested 200 ms delay is honoured exactly, so
invocation k happens at t0 + 200·k — the state is exited within
WAIT_BEFORE_ASKING_FOR_MISSING_TX_INTERVAL + WAIT_FOR_TX_TIMEOUT_INTERVAL
plus one re-entry period (in fact by t0 + 60000): either successfully to
SYNERGETIC_EXECUTION with the pending transaction set discharged, or to
RESET with the block removed from the chain after the ask-peers deadline
and the subsequent overall timeout have both expired. -/
theorem wait_for_transactions_bounded_exit :
    ∀ (txsAt : Nat → List Nat) (dagAt : Nat → Bool) (t0 : Nat)
      (w : World) (cb : Block),
      w.current_block = some cb →
      txGood w.chain_blocks cb (txWaitRun txsAt dagAt t0 301 0 w) := by
  intro txsAt dagAt t0 w cb hcb
  have hstep := onWaitTx_entry (t0 + TX_WAIT_RETRY_PERIOD_MS * 0) (dagAt 0)
    (setTxs w (txsAt 0)) cb hcb
  obtain ⟨hpres, hdisj⟩ := waitTxTail_spec (dagAt 0) cb
    (entryUpdate (t0 + TX_WAIT_RETRY_PERIOD_MS * 0) (setTxs w (txsAt 0)))
  have hbne : ((0 : Nat) != 0) = false := rfl
  rw [show (301 : Nat) = 300 + 1 from rfl, txWaitRun_succ]
  simp only [hbne]
  simp only [hstep]
  rcases hdisj with ⟨hnext, hpend⟩ | ⟨hnext, hpend⟩
  · have hne : (waitTxTail (dagAt 0) cb
        (entryUpdate (t0 + TX_WAIT_RETRY_PERIOD_MS * 0) (setTxs w (txsAt 0)))).next ≠
        State.WAIT_FOR_TRANSACTIONS := by
      rw [hnext]; decide
    rw [if_neg hne]
    simp only [txGood, exitOf, Option.getD_some, Option.isSome_some]
    exact ⟨trivial, by omega, by omega, Or.inl ⟨hnext, hpend⟩⟩
  · rw [if_pos hnext]
    refine txWaitRun_phase_bound txsAt dagAt t0 w.chain_blocks cb 300 1 _
      (by omega) (by omega) (Or.inl ⟨by omega, ?_, hpend, ?_, ?_, ?_⟩)
    · exact hpres.1.trans hcb
    · exact hpres.2.1.trans rfl
    · refine hpres.2.2.1.trans ?_
      show t0 + TX_WAIT_RETRY_PERIOD_MS * 0 + WAIT_BEFORE_ASKING_FOR_MISSING_TX_MS =
        t0 + WAIT_BEFORE_ASKING_FOR_MISSING_TX_MS
      simp
    · exact hpres.2.2.2.2.trans rfl

/-- Witness for C6 at a concrete world whose transactions never arrive:
the run exits in the claimed shape. -/
theorem wait_for_transactions_bounded_exit_witness :
    txGood c6W.chain_blocks c4Cb
      (txWaitRun (fun _ => []) (fun _ => true) 0 301 0 c6W) :=
  wait_for_transactions_bounded_exit (fun _ => []) (fun _ => true) 0 c6W c4Cb rfl
